import Mathlib

/-!
Shallow embedding of the SmashMate pairwise skill-rating engine:
the match rating pipeline (`app/core/matches.py`), the rating/team store
operations (`app/services/database.py`), and the compatibility /
recommendation analytics (`app/services/database.py`,
`app/core/recommendations.py`).

Player ids are modelled as strings (the code compares `str(uuid)`
lexicographically).  Floats are modelled as rationals.  The
`player_ratings` table is keyed by `player_id` (upserts by primary key), so
it is modelled as a function from id to optional record; the `teams` and
`profiles` tables are modelled as lists because the code enumerates them in
table order.  The external `trueskill.rate` call is not part of the
repository; the pipeline is parametrised over it, and a separate
spec-modelled step (`skillModelStep`) captures the spec's description of
the Bayesian update.
-/

namespace SmashMate

/-- A row of the `player_ratings` table. -/
structure PlayerRating where
  mu : ℚ
  sigma : ℚ
  games_played : ℤ
  deriving DecidableEq, Repr

/-- A row of the `teams` table.  `player_a`/`player_b` are stored in
canonical (lexicographically sorted) order. -/
structure Team where
  player_a : String
  player_b : String
  mu : ℚ
  sigma : ℚ
  games_played : ℤ
  deriving DecidableEq, Repr

/-- A row of the `profiles` table. -/
structure Profile where
  user_id : String
  display_name : String
  deriving DecidableEq, Repr

/-- One set's score, `{"team1": _, "team2": _}`. -/
structure SetScore where
  team1 : ℤ
  team2 : ℤ
  deriving DecidableEq, Repr

/-- A row of the `match_players` table. -/
structure MatchPlayer where
  player_id : String
  team : ℕ
  is_winner : Bool
  deriving DecidableEq, Repr

/-- A stored match together with its players (`get_match` returns the
match row with its `match_players` rows attached). -/
structure Match where
  scores : List SetScore
  players : List MatchPlayer
  deriving DecidableEq, Repr

/-- The slice of the backing store the rating engine touches. -/
structure DB where
  ratings : String → Option PlayerRating
  teams : List Team
  profiles : List Profile
  match_rows : List Match

/-- `DatabaseService.get_player_rating`: single-row lookup by player id,
`None` when absent. -/
def get_player_rating (db : DB) (pid : String) : Option PlayerRating :=
  db.ratings pid

/-- `DatabaseService.update_player_rating`: upsert of the full rating row
keyed by `player_id`. -/
def update_player_rating (db : DB) (pid : String) (mu sigma : ℚ)
    (games_played : ℤ) : DB :=
  { db with ratings := fun q =>
      if q = pid then some ⟨mu, sigma, games_played⟩ else db.ratings q }

/-- Lexicographic comparison of character lists by code point, the order
Python uses to compare the stringified player ids. -/
def charListLt : List Char → List Char → Bool
  | _, [] => false
  | [], _ :: _ => true
  | a :: as, b :: bs =>
    if a < b then true else if b < a then false else charListLt as bs

/-- The canonicalisation in `DatabaseService.create_team`: swap the two ids
when `str(player_a) > str(player_b)` so the smaller id is stored first.
Python string comparison is lexicographic on code points, i.e. the
lexicographic order on the strings' character lists. -/
def canonicalPair (player_a player_b : String) : String × String :=
  if charListLt player_b.data player_a.data then (player_b, player_a)
  else (player_a, player_b)

/-- Lookup of a team row by its (already canonical) id pair. -/
def findTeam (db : DB) (a b : String) : Option Team :=
  db.teams.find? (fun t => t.player_a = a ∧ t.player_b = b)

/-- `DatabaseService.create_team`: canonicalise the pair; if a row for the
pair exists return it and leave the store unchanged, otherwise insert a new
row with the given `mu`/`sigma`.  The insert payload does not mention
`games_played`, so the new row carries the column's default value 0. -/
def create_team (db : DB) (player_a player_b : String) (mu sigma : ℚ) : DB :=
  let k := canonicalPair player_a player_b
  match findTeam db k.1 k.2 with
  | some _ => db
  | none => { db with teams := db.teams ++ [⟨k.1, k.2, mu, sigma, 0⟩] }

/-- A `trueskill.Rating`: mean and standard deviation. -/
structure SRating where
  mu : ℚ
  sigma : ℚ
  deriving DecidableEq, Repr

/-- The shape of `trueskill.rate([team_a, team_b])` as used by the code:
two 2-player teams in, two 2-player teams out, first argument the winning
side.  The library itself is external to the repository, so the pipeline is
parametrised over it. -/
def RateFn : Type :=
  (SRating × SRating) → (SRating × SRating) → (SRating × SRating) × (SRating × SRating)

/-- The prior used in `update_ratings`: the stored rating if present,
otherwise the `trueskill.Rating()` defaults `mu = 25`, `sigma = 25/3`. -/
def ratingOrDefault (db : DB) (pid : String) : SRating :=
  match get_player_rating db pid with
  | some r => ⟨r.mu, r.sigma⟩
  | none => ⟨25, 25 / 3⟩

/-- The `games_played` basis used in `update_ratings` before each write:
`current_rating.get("games_played", 0) if current_rating else 0`. -/
def gamesPlayedOf (db : DB) (pid : String) : ℤ :=
  match get_player_rating db pid with
  | some r => r.games_played
  | none => 0

/-- One write-back step of `update_ratings`: re-fetch the player's current
`games_played` and upsert the new rating with the counter incremented. -/
def writeBack (db : DB) (pid : String) (r : SRating) : DB :=
  update_player_rating db pid r.mu r.sigma (gamesPlayedOf db pid + 1)

/-- `app/core/matches.py update_ratings`, for a match value as stored by
`create_match` (the code round-trips it through `get_match` by id; the
fetched value equals the stored one).  Indexing `team1_players[0]` etc. can
fail in Python, hence the `Option`. -/
def update_ratings (rate : RateFn) (db : DB) (m : Match) : Option DB := do
  let t1 := m.players.filter (fun p => p.team == 1)
  let t2 := m.players.filter (fun p => p.team == 2)
  let p10 ← t1[0]?
  let p11 ← t1[1]?
  let p20 ← t2[0]?
  let p21 ← t2[1]?
  let r1 := (ratingOrDefault db p10.player_id, ratingOrDefault db p11.player_id)
  let r2 := (ratingOrDefault db p20.player_id, ratingOrDefault db p21.player_id)
  let nr :=
    if p10.is_winner then rate r1 r2 else ((rate r2 r1).2, (rate r2 r1).1)
  let n1 := nr.1
  let n2 := nr.2
  let db1 := writeBack db p10.player_id n1.1
  let db2 := writeBack db1 p11.player_id n1.2
  let db3 := writeBack db2 p20.player_id n2.1
  let db4 := writeBack db3 p21.player_id n2.2
  let db5 := create_team db4 p10.player_id p11.player_id n1.1.mu n1.1.sigma
  let db6 := create_team db5 p20.player_id p21.player_id n2.1.mu n2.1.sigma
  return db6

/-- Sets won by team 1: `sum(1 for score in scores if score["team1"] > score["team2"])`. -/
def team1WinCount (scores : List SetScore) : ℕ :=
  (scores.filter (fun s => s.team2 < s.team1)).length

/-- Sets won by team 2. -/
def team2WinCount (scores : List SetScore) : ℕ :=
  (scores.filter (fun s => s.team1 < s.team2)).length

/-- `team1_won = team1_wins > team2_wins`. -/
def team1Won (scores : List SetScore) : Bool :=
  team2WinCount scores < team1WinCount scores

/-- The `players` list built by `app/core/matches.py create_match`. -/
def matchPlayersFor (t1 t2 : String × String) (w : Bool) : List MatchPlayer :=
  [⟨t1.1, 1, w⟩, ⟨t1.2, 1, w⟩, ⟨t2.1, 2, !w⟩, ⟨t2.2, 2, !w⟩]

/-- `app/core/matches.py create_match`: decide the winner from the set
scores, store the match with its players, then run `update_ratings` on it. -/
def create_match_core (rate : RateFn) (db : DB) (t1 t2 : String × String)
    (scores : List SetScore) : Option (DB × Match) :=
  let w := team1Won scores
  let m : Match := ⟨scores, matchPlayersFor t1 t2 w⟩
  let db1 := { db with match_rows := db.match_rows ++ [m] }
  (update_ratings rate db1 m).map (fun d => (d, m))

/-- `app/api/matches.py create_match`: reject teams that do not have
exactly 2 players with a 400 before anything is written; otherwise delegate
to the core and map any failure to a 500. -/
def api_create_match (rate : RateFn) (db : DB) (team1 team2 : List String)
    (scores : List SetScore) : Except String DB :=
  match team1, team2 with
  | [a, b], [c, d] =>
    match create_match_core rate db (a, b) (c, d) scores with
    | some (db2, _) => .ok db2
    | none => .error "Failed to create match"
  | _, _ => .error "Each team must have exactly 2 players"

/-- The individual `mu` used in the compatibility computations:
`ratings_dict.get(pid, {}).get("mu", 25.0)`. -/
def muOrDefault (db : DB) (pid : String) : ℚ :=
  match get_player_rating db pid with
  | some r => r.mu
  | none => 25

/-- An entry of `DatabaseService.get_compatibility_scores`. -/
structure CompatEntry where
  partner_id : String
  team_rating : ℚ
  avg_individual_rating : ℚ
  compatibility_score : ℚ
  deriving DecidableEq, Repr

/-- An entry of `DatabaseService.get_recommended_partners`. -/
structure RecEntry where
  partner_id : String
  team_rating : ℚ
  avg_individual_rating : ℚ
  compatibility_score : ℚ
  games_played_together : ℤ
  deriving DecidableEq, Repr

/-- Descending order on compatibility scores, the sort key of
`compatibility_scores.sort(key=..., reverse=True)`. -/
def compatGE (x y : CompatEntry) : Prop :=
  y.compatibility_score ≤ x.compatibility_score

instance : DecidableRel compatGE := fun x y =>
  inferInstanceAs (Decidable (y.compatibility_score ≤ x.compatibility_score))

instance : IsTotal CompatEntry compatGE :=
  ⟨fun x y => le_total y.compatibility_score x.compatibility_score⟩

instance : IsTrans CompatEntry compatGE :=
  ⟨fun _ _ _ h1 h2 => le_trans h2 h1⟩

/-- Descending order on compatibility scores for recommendation entries. -/
def recGE (x y : RecEntry) : Prop :=
  y.compatibility_score ≤ x.compatibility_score

instance : DecidableRel recGE := fun x y =>
  inferInstanceAs (Decidable (y.compatibility_score ≤ x.compatibility_score))

instance : IsTotal RecEntry recGE :=
  ⟨fun x y => le_total y.compatibility_score x.compatibility_score⟩

instance : IsTrans RecEntry recGE :=
  ⟨fun _ _ _ h1 h2 => le_trans h2 h1⟩

/-- The `player_teams` loop of `get_compatibility_scores`: walk all team
rows in table order and keep `(partner_id, team_mu)` for the rows the
player is part of. -/
def compatPlayerTeams (db : DB) (pid : String) : List (String × ℚ) :=
  db.teams.filterMap (fun t =>
    if t.player_a = pid then some (t.player_b, t.mu)
    else if t.player_b = pid then some (t.player_a, t.mu)
    else none)

/-- Entry construction of `get_compatibility_scores`: the querying player's
own `mu` is fetched once and shared by all entries, each partner's `mu`
defaults to 25, `compatibility_score = team_mu - avg_individual_rating`. -/
def compatEntriesOf (db : DB) (pid : String) : List CompatEntry :=
  let player_rating := muOrDefault db pid
  (compatPlayerTeams db pid).map (fun pt =>
    let partner_rating := muOrDefault db pt.1
    let avg := (player_rating + partner_rating) / 2
    ⟨pt.1, pt.2, avg, pt.2 - avg⟩)

/-- `DatabaseService.get_compatibility_scores`.  Python's `list.sort` is a
stable sort, as is insertion sort, so the sorted list is modelled by
`List.insertionSort` on the descending-score order. -/
def db_get_compatibility_scores (db : DB) (pid : String) : List CompatEntry :=
  if compatPlayerTeams db pid = [] then []
  else List.insertionSort compatGE (compatEntriesOf db pid)

/-- The `player_teams` loop of `get_recommended_partners`: the team rows
are pre-filtered by the store query `gte("games_played", min_games)`. -/
def recPlayerTeams (db : DB) (pid : String) (min_games : ℤ) :
    List (String × ℚ × ℤ) :=
  (db.teams.filter (fun t => min_games ≤ t.games_played)).filterMap (fun t =>
    if t.player_a = pid then some (t.player_b, t.mu, t.games_played)
    else if t.player_b = pid then some (t.player_a, t.mu, t.games_played)
    else none)

/-- Entry construction of `get_recommended_partners`. -/
def recEntriesOf (db : DB) (pid : String) (min_games : ℤ) : List RecEntry :=
  let player_rating := muOrDefault db pid
  (recPlayerTeams db pid min_games).map (fun pt =>
    let partner_rating := muOrDefault db pt.1
    let avg := (player_rating + partner_rating) / 2
    ⟨pt.1, pt.2.1, avg, pt.2.1 - avg, pt.2.2⟩)

/-- Python's `lst[:limit]` for an `int` limit: a nonnegative limit takes a
clamped-length front segment; a negative limit stops `|limit|` short of the
end. -/
def pySliceTo (limit : ℤ) (l : List α) : List α :=
  if 0 ≤ limit then l.take limit.toNat
  else l.take (l.length - (-limit).toNat)

/-- `DatabaseService.get_recommended_partners`: filter by games played,
score, sort descending, then `recommendations[:limit]`. -/
def db_get_recommended_partners (db : DB) (pid : String) (limit min_games : ℤ) :
    List RecEntry :=
  if recPlayerTeams db pid min_games = [] then []
  else pySliceTo limit (List.insertionSort recGE (recEntriesOf db pid min_games))

/-- The `profiles_dict` lookup of `app/core/recommendations.py`: the dict
is built by a left fold, so a later row with the same `user_id` wins. -/
def profilesDictFind (db : DB) (pid : String) : Option Profile :=
  db.profiles.foldl (fun acc p => if p.user_id = pid then some p else acc) none

/-- A caller-facing compatibility entry: the partner id is replaced by the
partner's profile row. -/
structure CoreCompatEntry where
  partner : Profile
  team_rating : ℚ
  avg_individual_rating : ℚ
  compatibility_score : ℚ
  deriving DecidableEq, Repr

/-- A caller-facing recommendation entry. -/
structure CoreRecEntry where
  partner : Profile
  team_rating : ℚ
  avg_individual_rating : ℚ
  compatibility_score : ℚ
  games_played_together : ℤ
  deriving DecidableEq, Repr

/-- `app/core/recommendations.py get_compatibility_scores`: attach each
partner's profile and keep only rows whose partner id is a key of
`profiles_dict`. -/
def core_get_compatibility_scores (db : DB) (pid : String) :
    List CoreCompatEntry :=
  let scores := db_get_compatibility_scores db pid
  if scores = [] then []
  else scores.filterMap (fun e =>
    (profilesDictFind db e.partner_id).map (fun pr =>
      ⟨pr, e.team_rating, e.avg_individual_rating, e.compatibility_score⟩))

/-- `app/core/recommendations.py get_recommended_partners`: same profile
attachment and filtering over the store-level recommendation list. -/
def core_get_recommended_partners (db : DB) (pid : String)
    (limit min_games : ℤ) : List CoreRecEntry :=
  let recs := db_get_recommended_partners db pid limit min_games
  if recs = [] then []
  else recs.filterMap (fun e =>
    (profilesDictFind db e.partner_id).map (fun pr =>
      ⟨pr, e.team_rating, e.avg_individual_rating, e.compatibility_score,
        e.games_played_together⟩))

/-!
Spec-side descriptions used for the refinement claims about the
compatibility engine (section 4.3 of the specification), to be compared
with the code-derived functions above.
-/

/-- Spec description: the partner in a team containing the player. -/
def specPartnerOf (pid : String) (t : Team) : String :=
  if t.player_a = pid then t.player_b else t.player_a

/-- Spec description: one compatibility entry per stored team containing
the player, with `avg_individual_rating = (self.mu + partner.mu) / 2` and
`compatibility_score = team.mu - avg_individual_rating`. -/
def specCompatEntries (db : DB) (pid : String) : List CompatEntry :=
  (db.teams.filter (fun t => t.player_a = pid ∨ t.player_b = pid)).map
    (fun t =>
      let partner := specPartnerOf pid t
      let avg := (muOrDefault db pid + muOrDefault db partner) / 2
      ⟨partner, t.mu, avg, t.mu - avg⟩)

/-- Spec description: the recommendation entries, restricted to teams with
`games_played >= min_games`. -/
def specRecEntries (db : DB) (pid : String) (min_games : ℤ) : List RecEntry :=
  (db.teams.filter (fun t =>
      min_games ≤ t.games_played ∧ (t.player_a = pid ∨ t.player_b = pid))).map
    (fun t =>
      let partner := specPartnerOf pid t
      let avg := (muOrDefault db pid + muOrDefault db partner) / 2
      ⟨partner, t.mu, avg, t.mu - avg, t.games_played⟩)

/-!
Spec-modelled skill update.  The repository calls the external
`trueskill.rate` library function, whose source is not part of the
repository; the step below is modelled from the spec's description of the
SkillModel: team performance variance is the sum of the members' variances
plus a performance-noise term, and each player's mean moves up (winners) or
down (losers) proportionally to that player's share of uncertainty
relative to the total, while the variance shrinks by a factor determined
by the same share.  Beliefs are carried as mean and variance (`sigmaSq`);
for positive quantities, comparisons of standard deviations agree with
comparisons of variances.  The positive outcome weight `v` and the shrink
weight `w` (with `0 < w ≤ 1`) are parameters of the step, as they are
outputs of the probabilistic model the spec does not define numerically.
-/

/-- A skill belief: mean and variance. -/
structure Belief where
  mu : ℚ
  sigmaSq : ℚ
  deriving DecidableEq, Repr

/-- Modelled from the spec: the total uncertainty of a 2v2 match, the sum
of the four players' variances plus the performance-noise variance. -/
def totalVariance (w1 w2 l1 l2 : Belief) (perfVar : ℚ) : ℚ :=
  w1.sigmaSq + w2.sigmaSq + l1.sigmaSq + l2.sigmaSq + perfVar

/-- Modelled from the spec: a winning player's belief update. -/
def updateWinner (b : Belief) (c2 v w : ℚ) : Belief :=
  ⟨b.mu + b.sigmaSq / c2 * v, b.sigmaSq * (1 - w * (b.sigmaSq / c2))⟩

/-- Modelled from the spec: a losing player's belief update. -/
def updateLoser (b : Belief) (c2 v w : ℚ) : Belief :=
  ⟨b.mu - b.sigmaSq / c2 * v, b.sigmaSq * (1 - w * (b.sigmaSq / c2))⟩

/-- Modelled from the spec: the SkillModel step for a 2v2 match, winners
listed first. -/
def skillModelStep (w1 w2 l1 l2 : Belief) (perfVar v w : ℚ) :
    Belief × Belief × Belief × Belief :=
  let c2 := totalVariance w1 w2 l1 l2 perfVar
  (updateWinner w1 c2 v w, updateWinner w2 c2 v w,
    updateLoser l1 c2 v w, updateLoser l2 c2 v w)

/-- Proof-structuring view of `update_ratings`: the two new team-pair
ratings, winners computed first when `team1_won` holds. -/
def newRatings (rate : RateFn) (db : DB) (t1 t2 : String × String)
    (w : Bool) : (SRating × SRating) × (SRating × SRating) :=
  let r1 := (ratingOrDefault db t1.1, ratingOrDefault db t1.2)
  let r2 := (ratingOrDefault db t2.1, ratingOrDefault db t2.2)
  if w then rate r1 r2 else ((rate r2 r1).2, (rate r2 r1).1)

/-- Proof-structuring view of `update_ratings`: the six sequential store
writes (four player upserts, two team creations). -/
def applyWrites (db : DB) (t1 t2 : String × String)
    (nr : (SRating × SRating) × (SRating × SRating)) : DB :=
  create_team
    (create_team
      (writeBack (writeBack (writeBack (writeBack db t1.1 nr.1.1)
        t1.2 nr.1.2) t2.1 nr.2.1) t2.2 nr.2.2)
      t1.1 t1.2 nr.1.1.mu nr.1.1.sigma)
    t2.1 t2.2 nr.2.1.mu nr.2.1.sigma

/-- An empty store, for the concrete scenarios. -/
def dbEmpty : DB := ⟨fun _ => none, [], [], []⟩

/-- A concrete stand-in for the external rating function, used in the
concrete scenarios: it moves unrated (mu 25) winners to 30 and losers to
20, and any other winners to 40 and losers to 10, so two successive
matches of the same teams produce different outputs. -/
def rateProbe : RateFn := fun r1 _ =>
  if r1.1.mu = 25 then ((⟨30, 8⟩, ⟨30, 8⟩), (⟨20, 8⟩, ⟨20, 8⟩))
  else ((⟨40, 7⟩, ⟨40, 7⟩), (⟨10, 7⟩, ⟨10, 7⟩))

/-! ### Theorems -/

/-- The filter on team 1 of the players list built by `create_match`. -/
theorem filter_team1 (t1 t2 : String × String) (w : Bool) :
    (matchPlayersFor t1 t2 w).filter (fun p => p.team == 1) =
      [⟨t1.1, 1, w⟩, ⟨t1.2, 1, w⟩] := rfl

/-- The filter on team 2 of the players list built by `create_match`. -/
theorem filter_team2 (t1 t2 : String × String) (w : Bool) :
    (matchPlayersFor t1 t2 w).filter (fun p => p.team == 2) =
      [⟨t2.1, 2, !w⟩, ⟨t2.2, 2, !w⟩] := rfl

/-- `update_ratings` on a match built by `create_match` always succeeds
and performs exactly the six writes of `applyWrites`. -/
theorem update_ratings_matchPlayers (rate : RateFn) (db : DB)
    (scores : List SetScore) (t1 t2 : String × String) (w : Bool) :
    update_ratings rate db ⟨scores, matchPlayersFor t1 t2 w⟩ =
      some (applyWrites db t1 t2 (newRatings rate db t1 t2 w)) := rfl

/-- Structural form of `create_match_core`: it always succeeds, storing
the match row and applying the six writes. -/
theorem create_match_core_eq (rate : RateFn) (db : DB)
    (t1 t2 : String × String) (scores : List SetScore) :
    create_match_core rate db t1 t2 scores =
      some
        (applyWrites
          { db with match_rows :=
              db.match_rows ++ [⟨scores, matchPlayersFor t1 t2 (team1Won scores)⟩] }
          t1 t2 (newRatings rate db t1 t2 (team1Won scores)),
         ⟨scores, matchPlayersFor t1 t2 (team1Won scores)⟩) := rfl

/-- Rating lookup after an upsert of the same player. -/
theorem get_update_self (db : DB) (pid : String) (mu sigma : ℚ) (g : ℤ) :
    get_player_rating (update_player_rating db pid mu sigma g) pid =
      some ⟨mu, sigma, g⟩ := by
  simp [get_player_rating, update_player_rating]

/-- Rating lookup after an upsert of a different player. -/
theorem get_update_ne (db : DB) (pid q : String) (mu sigma : ℚ) (g : ℤ)
    (h : q ≠ pid) :
    get_player_rating (update_player_rating db pid mu sigma g) q =
      get_player_rating db q := by
  simp [get_player_rating, update_player_rating, h]

/-- Rating lookup after the write-back step of the same player. -/
theorem get_writeBack_self (db : DB) (pid : String) (r : SRating) :
    get_player_rating (writeBack db pid r) pid =
      some ⟨r.mu, r.sigma, gamesPlayedOf db pid + 1⟩ := by
  simp [writeBack, get_update_self]

/-- Rating lookup after the write-back step of a different player. -/
theorem get_writeBack_ne (db : DB) (pid q : String) (r : SRating)
    (h : q ≠ pid) :
    get_player_rating (writeBack db pid r) q = get_player_rating db q := by
  simp [writeBack, get_update_ne _ _ _ _ _ _ h]

/-- Games-played counter after the write-back step of the same player. -/
theorem gamesPlayedOf_writeBack_self (db : DB) (pid : String) (r : SRating) :
    gamesPlayedOf (writeBack db pid r) pid = gamesPlayedOf db pid + 1 := by
  simp [gamesPlayedOf, get_writeBack_self]

/-- Games-played counter after the write-back step of a different player. -/
theorem gamesPlayedOf_writeBack_ne (db : DB) (pid q : String) (r : SRating)
    (h : q ≠ pid) :
    gamesPlayedOf (writeBack db pid r) q = gamesPlayedOf db q := by
  simp [gamesPlayedOf, get_writeBack_ne _ _ _ _ h]

/-- `create_team` does not touch the player ratings. -/
theorem get_create_team (db : DB) (a b : String) (mu sigma : ℚ) (q : String) :
    get_player_rating (create_team db a b mu sigma) q =
      get_player_rating db q := by
  simp only [create_team]
  split <;> rfl

/-- `create_team` does not change the games-played counters. -/
theorem gamesPlayedOf_create_team (db : DB) (a b : String) (mu sigma : ℚ)
    (q : String) :
    gamesPlayedOf (create_team db a b mu sigma) q = gamesPlayedOf db q := by
  simp [gamesPlayedOf, get_create_team]

/-- Player writes do not touch the team rows. -/
theorem findTeam_writeBack (db : DB) (pid : String) (r : SRating)
    (a b : String) :
    findTeam (writeBack db pid r) a b = findTeam db a b := rfl

/-- Team lookup of the canonical key after `create_team` of that pair:
an existing row is kept as is, otherwise the freshly inserted row (with
`games_played` 0) is found. -/
theorem findTeam_create_team_self (db : DB) (pa pb : String) (mu sigma : ℚ) :
    findTeam (create_team db pa pb mu sigma) (canonicalPair pa pb).1
        (canonicalPair pa pb).2 =
      match findTeam db (canonicalPair pa pb).1 (canonicalPair pa pb).2 with
      | some t => some t
      | none =>
        some ⟨(canonicalPair pa pb).1, (canonicalPair pa pb).2, mu, sigma, 0⟩ := by
  simp only [create_team]
  cases hf : findTeam db (canonicalPair pa pb).1 (canonicalPair pa pb).2 with
  | some t => exact hf
  | none =>
    have hf2 := hf
    simp only [findTeam, Bool.decide_and] at hf2
    simp [findTeam, List.find?_append, List.find?, hf2]

/-- Team lookup of a different key is unaffected by `create_team`. -/
theorem findTeam_create_team_ne (db : DB) (pa pb : String) (mu sigma : ℚ)
    (a b : String) (h : (a, b) ≠ canonicalPair pa pb) :
    findTeam (create_team db pa pb mu sigma) a b = findTeam db a b := by
  simp only [create_team]
  cases hf : findTeam db (canonicalPair pa pb).1 (canonicalPair pa pb).2 with
  | some t => rfl
  | none =>
    have hne : ¬((canonicalPair pa pb).1 = a ∧ (canonicalPair pa pb).2 = b) := by
      rintro ⟨h1, h2⟩
      apply h
      rw [← h1, ← h2]
    have hb : (decide ((canonicalPair pa pb).1 = a) &&
        decide ((canonicalPair pa pb).2 = b)) = false := by
      simp only [← Bool.decide_and, decide_eq_false_iff_not]
      exact hne
    simp [findTeam, List.find?_append, List.find?, hb]

/-- The canonical pair is one of the two orderings of its arguments. -/
theorem canonicalPair_cases (a b : String) :
    canonicalPair a b = (a, b) ∨ canonicalPair a b = (b, a) := by
  cases hc : charListLt b.data a.data <;> simp [canonicalPair, hc]

/-- C5: a single `applyMatchResult` on a match of four distinct players
increments every participant's stored `games_played` by exactly 1 (with 0
as the basis for players who had no rating row). -/
theorem games_played_increment (rate : RateFn) (db : DB)
    (t1 t2 : String × String) (scores : List SetScore) (db2 : DB) (m : Match)
    (hnd : [t1.1, t1.2, t2.1, t2.2].Nodup)
    (h : create_match_core rate db t1 t2 scores = some (db2, m)) :
    ∀ p ∈ [t1.1, t1.2, t2.1, t2.2],
      gamesPlayedOf db2 p = gamesPlayedOf db p + 1 := by
  rw [create_match_core_eq] at h
  simp only [Option.some.injEq, Prod.mk.injEq] at h
  obtain ⟨rfl, -⟩ := h
  simp only [List.nodup_cons, List.mem_cons, List.not_mem_nil, or_false,
    not_or, List.nodup_nil, and_true] at hnd
  obtain ⟨⟨h12, h13, h14⟩, ⟨h23, h24⟩, h34, -⟩ := hnd
  intro p hp
  simp only [List.mem_cons, List.not_mem_nil, or_false] at hp
  rcases hp with rfl | rfl | rfl | rfl
  · simp only [applyWrites]
    rw [gamesPlayedOf_create_team, gamesPlayedOf_create_team,
      gamesPlayedOf_writeBack_ne _ _ _ _ h14,
      gamesPlayedOf_writeBack_ne _ _ _ _ h13,
      gamesPlayedOf_writeBack_ne _ _ _ _ h12,
      gamesPlayedOf_writeBack_self]
    rfl
  · simp only [applyWrites]
    rw [gamesPlayedOf_create_team, gamesPlayedOf_create_team,
      gamesPlayedOf_writeBack_ne _ _ _ _ h24,
      gamesPlayedOf_writeBack_ne _ _ _ _ h23,
      gamesPlayedOf_writeBack_self,
      gamesPlayedOf_writeBack_ne _ _ _ _ (Ne.symm h12)]
    rfl
  · simp only [applyWrites]
    rw [gamesPlayedOf_create_team, gamesPlayedOf_create_team,
      gamesPlayedOf_writeBack_ne _ _ _ _ h34,
      gamesPlayedOf_writeBack_self,
      gamesPlayedOf_writeBack_ne _ _ _ _ (Ne.symm h23),
      gamesPlayedOf_writeBack_ne _ _ _ _ (Ne.symm h13)]
    rfl
  · simp only [applyWrites]
    rw [gamesPlayedOf_create_team, gamesPlayedOf_create_team,
      gamesPlayedOf_writeBack_self,
      gamesPlayedOf_writeBack_ne _ _ _ _ (Ne.symm h34),
      gamesPlayedOf_writeBack_ne _ _ _ _ (Ne.symm h24),
      gamesPlayedOf_writeBack_ne _ _ _ _ (Ne.symm h14)]
    rfl

/-- Witness for C5: one match of `("a","b")` against `("c","d")` on the
empty store takes player `"a"`'s counter from 0 to 1. -/
theorem games_played_increment_witness :
    gamesPlayedOf
      (applyWrites
        { dbEmpty with match_rows := dbEmpty.match_rows ++
            [⟨[⟨21, 18⟩],
              matchPlayersFor ("a", "b") ("c", "d") (team1Won [⟨21, 18⟩])⟩] }
        ("a", "b") ("c", "d")
        (newRatings rateProbe dbEmpty ("a", "b") ("c", "d")
          (team1Won [⟨21, 18⟩]))) "a" =
      gamesPlayedOf dbEmpty "a" + 1 :=
  games_played_increment rateProbe dbEmpty ("a", "b") ("c", "d") [⟨21, 18⟩]
    _ _ (by decide)
    (create_match_core_eq rateProbe dbEmpty ("a", "b") ("c", "d") [⟨21, 18⟩])
    "a" (by decide)

/-- C8: a missing rating row never makes `applyMatchResult` fail — the
operation succeeds on any store, and the prior used for a player without a
rating row is the default `(mu 25, sigma 25/3)` with a games basis of 0. -/
theorem missing_rating_defaults (rate : RateFn) (db : DB)
    (t1 t2 : String × String) (scores : List SetScore) (p : String) :
    (∃ pr, create_match_core rate db t1 t2 scores = some pr) ∧
    (get_player_rating db p = none →
      ratingOrDefault db p = ⟨25, 25 / 3⟩ ∧ gamesPlayedOf db p = 0) := by
  refine ⟨⟨_, create_match_core_eq rate db t1 t2 scores⟩, fun h => ?_⟩
  constructor
  · simp [ratingOrDefault, h]
  · simp [gamesPlayedOf, h]

/-- Witness for C8 on the empty store. -/
theorem missing_rating_defaults_witness :
    ratingOrDefault dbEmpty "a" = ⟨25, 25 / 3⟩ ∧ gamesPlayedOf dbEmpty "a" = 0 :=
  (missing_rating_defaults rateProbe dbEmpty ("a", "b") ("c", "d")
    [⟨21, 18⟩] "a").2 rfl

/-- C3 (amended): the only pre-write validation is the team-size check —
teams that do not have exactly two players are rejected with the 400 error
before anything is written, while any two-player teams (duplicate ids
included) are processed and written. -/
theorem match_validation_size_only (rate : RateFn) (db : DB)
    (team1 team2 : List String) (scores : List SetScore) :
    (team1.length ≠ 2 ∨ team2.length ≠ 2 →
      api_create_match rate db team1 team2 scores =
        .error "Each team must have exactly 2 players") ∧
    (∀ a b c d, team1 = [a, b] → team2 = [c, d] →
      ∃ db2, api_create_match rate db team1 team2 scores = .ok db2) := by
  constructor
  · intro h
    rcases team1 with _ | ⟨a, _ | ⟨b, _ | ⟨a3, rest1⟩⟩⟩ <;>
      rcases team2 with _ | ⟨c, _ | ⟨d, _ | ⟨c3, rest2⟩⟩⟩ <;>
      simp_all [api_create_match]
  · rintro a b c d rfl rfl
    refine ⟨applyWrites
      { db with match_rows := db.match_rows ++
          [⟨scores, matchPlayersFor (a, b) (c, d) (team1Won scores)⟩] }
      (a, b) (c, d) (newRatings rate db (a, b) (c, d) (team1Won scores)), ?_⟩
    show (match create_match_core rate db (a, b) (c, d) scores with
      | some (db2, _) => Except.ok db2
      | none => Except.error "Failed to create match") =
      Except.ok (applyWrites
        { db with match_rows := db.match_rows ++
            [⟨scores, matchPlayersFor (a, b) (c, d) (team1Won scores)⟩] }
        (a, b) (c, d) (newRatings rate db (a, b) (c, d) (team1Won scores)))
    rw [create_match_core_eq]

/-- Witness for C3 at a malformed one-player team and at a well-formed
pair of teams. -/
theorem match_validation_size_only_witness :
    api_create_match rateProbe dbEmpty ["a"] ["c", "d"] [⟨21, 18⟩] =
      .error "Each team must have exactly 2 players" :=
  (match_validation_size_only rateProbe dbEmpty ["a"] ["c", "d"]
    [⟨21, 18⟩]).1 (by decide)

/-- Counterexample for C3: a duplicated player id (team1 = `("x","x")`) is
not rejected — the call succeeds and performs writes; the duplicated
player's counter is even incremented twice. -/
theorem duplicate_ids_not_rejected :
    (api_create_match rateProbe dbEmpty ["x", "x"] ["y", "z"]
        [⟨21, 18⟩]).toOption.map (fun d => gamesPlayedOf d "x") =
      some 2 := by decide

/-- C1 (amended): after `applyMatchResult`, a team record keyed by the
canonical pair is present for each side: if the pair had no record, a row
seeded from the first listed member's freshly written post-match
`(mu, sigma)` and a `games_played` of 0 is inserted; if the pair already
had a record, it is returned unchanged — no overwrite and no counter
increment happens on later matches of the same pair. -/
theorem team_record_no_overwrite (rate : RateFn) (db : DB)
    (t1 t2 : String × String) (scores : List SetScore) (db2 : DB) (m : Match)
    (hnd : [t1.1, t1.2, t2.1, t2.2].Nodup)
    (h : create_match_core rate db t1 t2 scores = some (db2, m)) :
    ((∀ r, findTeam db (canonicalPair t1.1 t1.2).1 (canonicalPair t1.1 t1.2).2 =
          some r →
        findTeam db2 (canonicalPair t1.1 t1.2).1 (canonicalPair t1.1 t1.2).2 =
          some r) ∧
      (findTeam db (canonicalPair t1.1 t1.2).1 (canonicalPair t1.1 t1.2).2 =
          none →
        ∃ pr : PlayerRating, get_player_rating db2 t1.1 = some pr ∧
          findTeam db2 (canonicalPair t1.1 t1.2).1 (canonicalPair t1.1 t1.2).2 =
            some ⟨(canonicalPair t1.1 t1.2).1, (canonicalPair t1.1 t1.2).2,
              pr.mu, pr.sigma, 0⟩)) ∧
    ((∀ r, findTeam db (canonicalPair t2.1 t2.2).1 (canonicalPair t2.1 t2.2).2 =
          some r →
        findTeam db2 (canonicalPair t2.1 t2.2).1 (canonicalPair t2.1 t2.2).2 =
          some r) ∧
      (findTeam db (canonicalPair t2.1 t2.2).1 (canonicalPair t2.1 t2.2).2 =
          none →
        ∃ pr : PlayerRating, get_player_rating db2 t2.1 = some pr ∧
          findTeam db2 (canonicalPair t2.1 t2.2).1 (canonicalPair t2.1 t2.2).2 =
            some ⟨(canonicalPair t2.1 t2.2).1, (canonicalPair t2.1 t2.2).2,
              pr.mu, pr.sigma, 0⟩)) := by
  rw [create_match_core_eq] at h
  simp only [Option.some.injEq, Prod.mk.injEq] at h
  obtain ⟨rfl, -⟩ := h
  simp only [List.nodup_cons, List.mem_cons, List.not_mem_nil, or_false,
    not_or, List.nodup_nil, and_true] at hnd
  obtain ⟨⟨h12, h13, h14⟩, ⟨h23, h24⟩, h34, -⟩ := hnd
  have hk12 : canonicalPair t1.1 t1.2 ≠ canonicalPair t2.1 t2.2 := by
    rcases canonicalPair_cases t1.1 t1.2 with e1 | e1 <;>
      rcases canonicalPair_cases t2.1 t2.2 with e2 | e2 <;> rw [e1, e2] <;>
      first
      | exact fun he => h13 (congrArg Prod.fst he)
      | exact fun he => h14 (congrArg Prod.fst he)
      | exact fun he => h23 (congrArg Prod.fst he)
      | exact fun he => h24 (congrArg Prod.fst he)
  set D := applyWrites
    { db with match_rows := db.match_rows ++
        [⟨scores, matchPlayersFor t1 t2 (team1Won scores)⟩] }
    t1 t2 (newRatings rate db t1 t2 (team1Won scores)) with hD
  have hT1 : findTeam D (canonicalPair t1.1 t1.2).1 (canonicalPair t1.1 t1.2).2 =
      match findTeam db (canonicalPair t1.1 t1.2).1
          (canonicalPair t1.1 t1.2).2 with
      | some t => some t
      | none =>
        some ⟨(canonicalPair t1.1 t1.2).1, (canonicalPair t1.1 t1.2).2,
          (newRatings rate db t1 t2 (team1Won scores)).1.1.mu,
          (newRatings rate db t1 t2 (team1Won scores)).1.1.sigma, 0⟩ := by
    rw [hD]
    simp only [applyWrites]
    rw [findTeam_create_team_ne _ t2.1 t2.2 _ _
        (canonicalPair t1.1 t1.2).1 (canonicalPair t1.1 t1.2).2 hk12,
      findTeam_create_team_self]
    rfl
  have hT2 : findTeam D (canonicalPair t2.1 t2.2).1 (canonicalPair t2.1 t2.2).2 =
      match findTeam db (canonicalPair t2.1 t2.2).1
          (canonicalPair t2.1 t2.2).2 with
      | some t => some t
      | none =>
        some ⟨(canonicalPair t2.1 t2.2).1, (canonicalPair t2.1 t2.2).2,
          (newRatings rate db t1 t2 (team1Won scores)).2.1.mu,
          (newRatings rate db t1 t2 (team1Won scores)).2.1.sigma, 0⟩ := by
    rw [hD]
    simp only [applyWrites]
    rw [findTeam_create_team_self,
      findTeam_create_team_ne _ t1.1 t1.2 _ _
        (canonicalPair t2.1 t2.2).1 (canonicalPair t2.1 t2.2).2
        (Ne.symm hk12)]
    rfl
  have hg1 : get_player_rating D t1.1 =
      some ⟨(newRatings rate db t1 t2 (team1Won scores)).1.1.mu,
        (newRatings rate db t1 t2 (team1Won scores)).1.1.sigma,
        gamesPlayedOf db t1.1 + 1⟩ := by
    rw [hD]
    simp only [applyWrites]
    rw [get_create_team, get_create_team,
      get_writeBack_ne _ _ _ _ h14,
      get_writeBack_ne _ _ _ _ h13,
      get_writeBack_ne _ _ _ _ h12,
      get_writeBack_self]
    rfl
  have hg2 : get_player_rating D t2.1 =
      some ⟨(newRatings rate db t1 t2 (team1Won scores)).2.1.mu,
        (newRatings rate db t1 t2 (team1Won scores)).2.1.sigma,
        gamesPlayedOf
          (writeBack
            (writeBack
              { db with match_rows := db.match_rows ++
                  [⟨scores, matchPlayersFor t1 t2 (team1Won scores)⟩] }
              t1.1 (newRatings rate db t1 t2 (team1Won scores)).1.1)
            t1.2 (newRatings rate db t1 t2 (team1Won scores)).1.2)
          t2.1 + 1⟩ := by
    rw [hD]
    simp only [applyWrites]
    rw [get_create_team, get_create_team,
      get_writeBack_ne _ _ _ _ h34,
      get_writeBack_self]
  refine ⟨⟨fun r hr => ?_, fun hnone => ?_⟩, ⟨fun r hr => ?_, fun hnone => ?_⟩⟩
  · rw [hT1, hr]
  · exact ⟨_, hg1, by rw [hT1, hnone]⟩
  · rw [hT2, hr]
  · exact ⟨_, hg2, by rw [hT2, hnone]⟩

/-- Witness for C1's amended statement: the first match of `("a","b")`
against `("c","d")` on the empty store seeds the `("a","b")` team record
from `"a"`'s freshly written rating, with `games_played` 0. -/
theorem team_record_no_overwrite_witness :
    ∃ pr : PlayerRating,
      get_player_rating
        (applyWrites
          { dbEmpty with match_rows := dbEmpty.match_rows ++
              [⟨[⟨21, 18⟩],
                matchPlayersFor ("a", "b") ("c", "d") (team1Won [⟨21, 18⟩])⟩] }
          ("a", "b") ("c", "d")
          (newRatings rateProbe dbEmpty ("a", "b") ("c", "d")
            (team1Won [⟨21, 18⟩]))) "a" = some pr ∧
      findTeam
        (applyWrites
          { dbEmpty with match_rows := dbEmpty.match_rows ++
              [⟨[⟨21, 18⟩],
                matchPlayersFor ("a", "b") ("c", "d") (team1Won [⟨21, 18⟩])⟩] }
          ("a", "b") ("c", "d")
          (newRatings rateProbe dbEmpty ("a", "b") ("c", "d")
            (team1Won [⟨21, 18⟩])))
        (canonicalPair "a" "b").1 (canonicalPair "a" "b").2 =
        some ⟨(canonicalPair "a" "b").1, (canonicalPair "a" "b").2,
          pr.mu, pr.sigma, 0⟩ :=
  ((team_record_no_overwrite rateProbe dbEmpty ("a", "b") ("c", "d")
    [⟨21, 18⟩] _ _ (by decide)
    (create_match_core_eq rateProbe dbEmpty ("a", "b") ("c", "d")
      [⟨21, 18⟩])).1).2 (by decide)

/-- Counterexample for C1: running the same 2v2 match twice with a rating
function whose outputs differ between the runs, the stored `("a","b")`
team row still holds the first match's mu (30) and `games_played` 0, while
`"a"`'s own post-match rating after the second match is 40 — the second
match's team output was not written (no replace, no counter increment). -/
theorem team_record_replace_counterexample :
    ((create_match_core rateProbe dbEmpty ("a", "b") ("c", "d")
          [⟨21, 18⟩]).bind
        (fun p => create_match_core rateProbe p.1 ("a", "b") ("c", "d")
          [⟨21, 18⟩])).map
      (fun p =>
        ((findTeam p.1 "a" "b").map (fun t => (t.mu, t.games_played)),
          (get_player_rating p.1 "a").map (fun r => r.mu))) =
      some (some ((30 : ℚ), (0 : ℤ)), some (40 : ℚ)) := by decide

/-- C2: for every match outcome, team1 is credited the win iff it won
strictly more sets than team2 (`team1_won = team1_wins > team2_wins`); on
any tie in sets won, `team1_won` is false and team2's players are the ones
marked as winners for the rating update. -/
theorem team1_won_strict_majority (scores : List SetScore)
    (t1 t2 : String × String) :
    (team1Won scores = true ↔ team2WinCount scores < team1WinCount scores) ∧
    (team1WinCount scores = team2WinCount scores →
      team1Won scores = false ∧
      ∀ p ∈ matchPlayersFor t1 t2 (team1Won scores),
        p.is_winner = decide (p.team = 2)) := by
  have hiff : team1Won scores = true ↔
      team2WinCount scores < team1WinCount scores := by
    simp [team1Won]
  refine ⟨hiff, fun h => ?_⟩
  have hfalse : team1Won scores = false := by
    simp [team1Won, h]
  refine ⟨hfalse, fun p hp => ?_⟩
  simp only [matchPlayersFor, hfalse, List.mem_cons, List.not_mem_nil,
    or_false] at hp
  rcases hp with h1 | h1 | h1 | h1 <;> subst h1 <;> rfl

/-- Witness for C2 at the tied two-set match `[(21,18), (18,21)]`. -/
theorem team1_won_strict_majority_witness :
    team1Won [⟨21, 18⟩, ⟨18, 21⟩] = false :=
  ((team1_won_strict_majority [⟨21, 18⟩, ⟨18, 21⟩] ("a", "b") ("c", "d")).2
    (by decide)).1

/-- `charListLt` agrees with the lexicographic order on character lists. -/
theorem charListLt_eq_true_iff (x y : List Char) :
    charListLt x y = true ↔ List.Lex (· < ·) x y := by
  induction x generalizing y with
  | nil =>
    cases y with
    | nil => simp [charListLt]
    | cons b bs =>
      simp only [charListLt]
      exact iff_of_true trivial List.Lex.nil
  | cons a as ih =>
    cases y with
    | nil => simp [charListLt]
    | cons b bs =>
      by_cases hab : a < b
      · simp only [charListLt, hab, if_true]
        exact iff_of_true trivial (List.Lex.rel hab)
      · by_cases hba : b < a
        · simp only [charListLt, hab, hba, if_true, if_false]
          refine iff_of_false (by simp) (fun hlex => ?_)
          cases hlex with
          | cons h => exact absurd rfl (ne_of_gt hba)
          | rel h => exact hab h
        · have heq : a = b := le_antisymm (le_of_not_lt hba) (le_of_not_lt hab)
          subst heq
          simp only [charListLt, hab, hba, if_false]
          rw [ih bs, List.Lex.cons_iff]

/-- `charListLt` on the character data is exactly the string order. -/
theorem charListLt_string_iff (s t : String) :
    charListLt s.data t.data = true ↔ s < t := by
  rw [charListLt_eq_true_iff]
  exact (String.lt_iff_toList_lt).symm

/-- C9: the canonical team pair key is order-independent, the
lexicographically smaller id is stored first, and `create_team` writes the
same record no matter the argument order. -/
theorem canonical_pair_key_symm (a b : String) :
    canonicalPair a b = canonicalPair b a ∧
    (canonicalPair a b).1 = min a b ∧
    (canonicalPair a b).2 = max a b ∧
    ∀ db mu sigma, create_team db a b mu sigma = create_team db b a mu sigma := by
  have key : canonicalPair a b = canonicalPair b a ∧
      (canonicalPair a b).1 = min a b ∧ (canonicalPair a b).2 = max a b := by
    rcases lt_trichotomy a b with h | h | h
    · have hT : charListLt a.data b.data = true := (charListLt_string_iff a b).mpr h
      have hF : charListLt b.data a.data = false := by
        rw [← Bool.not_eq_true, charListLt_string_iff]
        exact asymm h
      simp [canonicalPair, hT, hF, min_eq_left h.le, max_eq_right h.le]
    · subst h
      simp [canonicalPair]
    · have hT : charListLt b.data a.data = true := (charListLt_string_iff b a).mpr h
      have hF : charListLt a.data b.data = false := by
        rw [← Bool.not_eq_true, charListLt_string_iff]
        exact asymm h
      simp [canonicalPair, hT, hF, min_eq_right h.le, max_eq_left h.le]
  refine ⟨key.1, key.2.1, key.2.2, fun db mu sigma => ?_⟩
  simp only [create_team, key.1]

/-- Positivity and shrinkage of the variance factor `1 - w * (s / c2)`. -/
theorem shrink_pos_le (s c2 w : ℚ) (hs : 0 < s) (hsc : s < c2) (hw : 0 < w)
    (hw1 : w ≤ 1) :
    0 < s * (1 - w * (s / c2)) ∧ s * (1 - w * (s / c2)) ≤ s := by
  have hc : 0 < c2 := hs.trans hsc
  have h1 : 0 ≤ w * (s / c2) := by positivity
  have h2 : w * (s / c2) < 1 := by
    have hsd : s / c2 < 1 := (div_lt_one hc).mpr hsc
    have hm : w * (s / c2) ≤ 1 * (s / c2) :=
      mul_le_mul_of_nonneg_right hw1 (by positivity)
    calc w * (s / c2) ≤ 1 * (s / c2) := hm
      _ = s / c2 := one_mul _
      _ < 1 := hsd
  constructor
  · have hpos : 0 < 1 - w * (s / c2) := by linarith
    positivity
  · nlinarith

/-- C4: spec-modelled SkillModel step.  With positive pre-match variances,
a nonnegative performance-noise term, a positive outcome weight and a
shrink weight in `(0, 1]`, every winner's mean strictly increases, every
loser's mean strictly decreases, and every player's variance stays
positive and does not grow (equivalently for the standard deviations,
which are the square roots of these variances). -/
theorem skill_update_invariants (w1 w2 l1 l2 : Belief) (perfVar v w : ℚ)
    (h1 : 0 < w1.sigmaSq) (h2 : 0 < w2.sigmaSq) (h3 : 0 < l1.sigmaSq)
    (h4 : 0 < l2.sigmaSq) (hp : 0 ≤ perfVar) (hv : 0 < v) (hw : 0 < w)
    (hw1 : w ≤ 1) :
    (w1.mu < (skillModelStep w1 w2 l1 l2 perfVar v w).1.mu ∧
      w2.mu < (skillModelStep w1 w2 l1 l2 perfVar v w).2.1.mu ∧
      (skillModelStep w1 w2 l1 l2 perfVar v w).2.2.1.mu < l1.mu ∧
      (skillModelStep w1 w2 l1 l2 perfVar v w).2.2.2.mu < l2.mu) ∧
    (0 < (skillModelStep w1 w2 l1 l2 perfVar v w).1.sigmaSq ∧
      (skillModelStep w1 w2 l1 l2 perfVar v w).1.sigmaSq ≤ w1.sigmaSq) ∧
    (0 < (skillModelStep w1 w2 l1 l2 perfVar v w).2.1.sigmaSq ∧
      (skillModelStep w1 w2 l1 l2 perfVar v w).2.1.sigmaSq ≤ w2.sigmaSq) ∧
    (0 < (skillModelStep w1 w2 l1 l2 perfVar v w).2.2.1.sigmaSq ∧
      (skillModelStep w1 w2 l1 l2 perfVar v w).2.2.1.sigmaSq ≤ l1.sigmaSq) ∧
    (0 < (skillModelStep w1 w2 l1 l2 perfVar v w).2.2.2.sigmaSq ∧
      (skillModelStep w1 w2 l1 l2 perfVar v w).2.2.2.sigmaSq ≤ l2.sigmaSq) := by
  have hc2 : w1.sigmaSq < totalVariance w1 w2 l1 l2 perfVar ∧
      w2.sigmaSq < totalVariance w1 w2 l1 l2 perfVar ∧
      l1.sigmaSq < totalVariance w1 w2 l1 l2 perfVar ∧
      l2.sigmaSq < totalVariance w1 w2 l1 l2 perfVar := by
    unfold totalVariance
    refine ⟨by linarith, by linarith, by linarith, by linarith⟩
  have hcpos : 0 < totalVariance w1 w2 l1 l2 perfVar := h1.trans hc2.1
  refine ⟨⟨?_, ?_, ?_, ?_⟩, ?_, ?_, ?_, ?_⟩
  · simp only [skillModelStep, updateWinner]
    have : 0 < w1.sigmaSq / totalVariance w1 w2 l1 l2 perfVar * v := by
      positivity
    linarith
  · simp only [skillModelStep, updateWinner]
    have : 0 < w2.sigmaSq / totalVariance w1 w2 l1 l2 perfVar * v := by
      positivity
    linarith
  · simp only [skillModelStep, updateLoser]
    have : 0 < l1.sigmaSq / totalVariance w1 w2 l1 l2 perfVar * v := by
      positivity
    linarith
  · simp only [skillModelStep, updateLoser]
    have : 0 < l2.sigmaSq / totalVariance w1 w2 l1 l2 perfVar * v := by
      positivity
    linarith
  · simpa [skillModelStep, updateWinner] using
      shrink_pos_le w1.sigmaSq (totalVariance w1 w2 l1 l2 perfVar) w h1 hc2.1 hw hw1
  · simpa [skillModelStep, updateWinner] using
      shrink_pos_le w2.sigmaSq (totalVariance w1 w2 l1 l2 perfVar) w h2 hc2.2.1 hw hw1
  · simpa [skillModelStep, updateLoser] using
      shrink_pos_le l1.sigmaSq (totalVariance w1 w2 l1 l2 perfVar) w h3 hc2.2.2.1 hw hw1
  · simpa [skillModelStep, updateLoser] using
      shrink_pos_le l2.sigmaSq (totalVariance w1 w2 l1 l2 perfVar) w h4 hc2.2.2.2 hw hw1

/-- Witness for C4 at four default-like beliefs with variance 69,
no extra performance noise, outcome weight 1 and shrink weight 1. -/
theorem skill_update_invariants_witness :
    (25 : ℚ) <
      (skillModelStep ⟨25, 69⟩ ⟨25, 69⟩ ⟨25, 69⟩ ⟨25, 69⟩ 0 1 1).1.mu :=
  (skill_update_invariants ⟨25, 69⟩ ⟨25, 69⟩ ⟨25, 69⟩ ⟨25, 69⟩ 0 1 1
    (by decide) (by decide) (by decide) (by decide) (by decide) (by decide)
    (by decide) (by decide)).1.1

/-- The `player_teams` loop of `get_compatibility_scores` keeps exactly the
teams containing the player, in table order, pairing each with the
spec-side partner. -/
theorem compatPlayerTeams_eq (db : DB) (pid : String) :
    compatPlayerTeams db pid =
      (db.teams.filter (fun t => t.player_a = pid ∨ t.player_b = pid)).map
        (fun t => (specPartnerOf pid t, t.mu)) := by
  unfold compatPlayerTeams specPartnerOf
  induction db.teams with
  | nil => rfl
  | cons t ts ih =>
    by_cases h1 : t.player_a = pid
    · simp [List.filterMap_cons, List.filter_cons, h1, ih]
    · by_cases h2 : t.player_b = pid
      · simp [List.filterMap_cons, List.filter_cons, h1, h2, ih]
      · simp [List.filterMap_cons, List.filter_cons, h1, h2, ih]

/-- The pre-sort entry list of `get_compatibility_scores` equals the
spec-side description. -/
theorem compatEntriesOf_eq (db : DB) (pid : String) :
    compatEntriesOf db pid = specCompatEntries db pid := by
  unfold compatEntriesOf specCompatEntries
  rw [compatPlayerTeams_eq, List.map_map]
  rfl

/-- C6: `get_compatibility_scores` returns a permutation of one spec-side
entry per stored team containing the player (own mu shared by all entries
with default 25, partner mu defaulting to 25, score = team mu minus the
average individual mu), sorted by compatibility score descending. -/
theorem compatibility_scores_spec (db : DB) (pid : String) :
    (db_get_compatibility_scores db pid).Perm (specCompatEntries db pid) ∧
    (db_get_compatibility_scores db pid).Sorted compatGE := by
  unfold db_get_compatibility_scores
  by_cases h : compatPlayerTeams db pid = []
  · rw [if_pos h]
    have h2 := compatPlayerTeams_eq db pid
    rw [h] at h2
    have h3 : db.teams.filter
        (fun t => decide (t.player_a = pid ∨ t.player_b = pid)) = [] :=
      List.map_eq_nil_iff.mp h2.symm
    constructor
    · unfold specCompatEntries
      rw [h3]
      rfl
    · simp
  · rw [if_neg h]
    refine ⟨?_, List.sorted_insertionSort compatGE _⟩
    have h2 : compatEntriesOf db pid = specCompatEntries db pid :=
      compatEntriesOf_eq db pid
    rw [← h2]
    exact List.perm_insertionSort compatGE _

/-- The `player_teams` loop of `get_recommended_partners`, including the
store-level `games_played >= min_games` filter, as one spec-side filter. -/
theorem recPlayerTeams_eq (db : DB) (pid : String) (min_games : ℤ) :
    recPlayerTeams db pid min_games =
      (db.teams.filter (fun t =>
          min_games ≤ t.games_played ∧
            (t.player_a = pid ∨ t.player_b = pid))).map
        (fun t => (specPartnerOf pid t, t.mu, t.games_played)) := by
  unfold recPlayerTeams specPartnerOf
  induction db.teams with
  | nil => rfl
  | cons t ts ih =>
    by_cases h0 : min_games ≤ t.games_played
    · by_cases h1 : t.player_a = pid
      · simp [List.filter_cons, List.filterMap_cons, h0, h1, ih]
      · by_cases h2 : t.player_b = pid
        · simp [List.filter_cons, List.filterMap_cons, h0, h1, h2, ih]
        · simp [List.filter_cons, List.filterMap_cons, h0, h1, h2, ih]
    · simp [List.filter_cons, h0, ih]

/-- The pre-sort entry list of `get_recommended_partners` equals the
spec-side description. -/
theorem recEntriesOf_eq (db : DB) (pid : String) (min_games : ℤ) :
    recEntriesOf db pid min_games = specRecEntries db pid min_games := by
  unfold recEntriesOf specRecEntries
  rw [recPlayerTeams_eq, List.map_map]
  rfl

/-- C7 (amended): `get_recommended_partners` sorts the spec-side entries of
the teams with `games_played >= min_games` by compatibility score
descending and returns a front segment of that sorted list: with
`0 <= limit` the first `limit` entries (clamped to the available count, all
of them when `limit` is at least the count, none when `limit = 0`); a
negative `limit` follows Python slice semantics and drops the last
`-limit` entries instead of returning the empty list. -/
theorem recommended_partners_spec (db : DB) (pid : String)
    (limit min_games : ℤ) :
    (List.insertionSort recGE (recEntriesOf db pid min_games)).Perm
        (specRecEntries db pid min_games) ∧
    (List.insertionSort recGE (recEntriesOf db pid min_games)).Sorted recGE ∧
    (∃ k, db_get_recommended_partners db pid limit min_games =
      (List.insertionSort recGE (recEntriesOf db pid min_games)).take k) ∧
    (∀ e ∈ db_get_recommended_partners db pid limit min_games,
      min_games ≤ e.games_played_together) ∧
    (0 ≤ limit →
      (db_get_recommended_partners db pid limit min_games).length =
        min limit.toNat
          (List.insertionSort recGE (recEntriesOf db pid min_games)).length) ∧
    (limit = 0 → db_get_recommended_partners db pid limit min_games = []) ∧
    (((List.insertionSort recGE (recEntriesOf db pid min_games)).length : ℤ) ≤
        limit →
      db_get_recommended_partners db pid limit min_games =
        List.insertionSort recGE (recEntriesOf db pid min_games)) ∧
    (limit < 0 →
      db_get_recommended_partners db pid limit min_games =
        (List.insertionSort recGE (recEntriesOf db pid min_games)).take
          ((List.insertionSort recGE (recEntriesOf db pid min_games)).length -
            (-limit).toNat)) := by
  have hperm : (List.insertionSort recGE (recEntriesOf db pid min_games)).Perm
      (specRecEntries db pid min_games) := by
    rw [← recEntriesOf_eq]
    exact List.perm_insertionSort recGE _
  have hout : db_get_recommended_partners db pid limit min_games =
      pySliceTo limit (List.insertionSort recGE (recEntriesOf db pid min_games)) := by
    unfold db_get_recommended_partners
    by_cases h : recPlayerTeams db pid min_games = []
    · rw [if_pos h]
      have hent : recEntriesOf db pid min_games = [] := by
        unfold recEntriesOf
        rw [h]
        rfl
      rw [hent]
      unfold pySliceTo
      split <;> simp
    · rw [if_neg h]
  have htake : ∃ k, pySliceTo limit
      (List.insertionSort recGE (recEntriesOf db pid min_games)) =
      (List.insertionSort recGE (recEntriesOf db pid min_games)).take k := by
    unfold pySliceTo
    by_cases h : 0 ≤ limit
    · exact ⟨limit.toNat, by rw [if_pos h]⟩
    · exact ⟨_, by rw [if_neg h]⟩
  refine ⟨hperm, List.sorted_insertionSort recGE _, ?_, ?_, ?_, ?_, ?_, ?_⟩
  · rw [hout]
    exact htake
  · intro e he
    rw [hout] at he
    obtain ⟨k, hk⟩ := htake
    rw [hk] at he
    have heS : e ∈ List.insertionSort recGE (recEntriesOf db pid min_games) :=
      List.take_subset _ _ he
    have heSpec : e ∈ specRecEntries db pid min_games := hperm.mem_iff.mp heS
    unfold specRecEntries at heSpec
    obtain ⟨t, ht, rfl⟩ := List.mem_map.mp heSpec
    have hpred := (List.mem_filter.mp ht).2
    simp only [decide_eq_true_eq] at hpred
    exact hpred.1
  · intro h
    rw [hout]
    unfold pySliceTo
    rw [if_pos h, List.length_take]
  · intro h
    subst h
    rw [hout]
    unfold pySliceTo
    rw [if_pos le_rfl]
    rfl
  · intro h
    have h0 : 0 ≤ limit :=
      le_trans (Int.ofNat_nonneg _) h
    rw [hout]
    unfold pySliceTo
    rw [if_pos h0]
    apply List.take_of_length_le
    omega
  · intro h
    rw [hout]
    unfold pySliceTo
    rw [if_neg (not_le.mpr h)]

/-- Witness for C7's amended statement: `limit = 0` yields the empty
list on the empty store. -/
theorem recommended_partners_spec_witness :
    db_get_recommended_partners dbEmpty "a" 0 0 = [] :=
  (recommended_partners_spec dbEmpty "a" 0 0).2.2.2.2.2.1 rfl

/-- A store with two qualifying teams for player `"a"`, for the C7
counterexample. -/
def dbTeams : DB :=
  ⟨fun _ => none, [⟨"a", "b", 30, 8, 5⟩, ⟨"a", "c", 28, 8, 5⟩], [], []⟩

/-- Counterexample for C7: with two qualifying teams and `limit = -1`, the
returned list is not empty (Python slice semantics drop only the last
entry), contradicting "empty for every limit <= 0". -/
theorem negative_limit_not_empty :
    (db_get_recommended_partners dbTeams "a" (-1) 0).length = 1 := by
  norm_num [db_get_recommended_partners, dbTeams, recPlayerTeams,
    recEntriesOf, muOrDefault, get_player_rating, specPartnerOf, pySliceTo,
    List.insertionSort, List.orderedInsert, recGE, List.filter,
    List.filterMap]
  rfl

/-- Any profile the dict lookup returns carries the looked-up user id. -/
theorem profilesFold_user_id (l : List Profile) (acc : Option Profile)
    (pid : String)
    (hacc : ∀ pr, acc = some pr → pr.user_id = pid) :
    ∀ pr, l.foldl (fun a p => if p.user_id = pid then some p else a) acc =
        some pr →
      pr.user_id = pid := by
  induction l generalizing acc with
  | nil => exact hacc
  | cons p ps ih =>
    intro pr h
    refine ih _ ?_ pr h
    intro pr2 h2
    have h2b : (if p.user_id = pid then some p else acc) = some pr2 := h2
    by_cases hp : p.user_id = pid
    · rw [if_pos hp] at h2b
      cases h2b
      exact hp
    · rw [if_neg hp] at h2b
      exact hacc pr2 h2b

/-- The dict lookup succeeds exactly when some profile row matches. -/
theorem profilesFold_isSome (l : List Profile) (acc : Option Profile)
    (pid : String) :
    (l.foldl (fun a p => if p.user_id = pid then some p else a) acc).isSome =
      (acc.isSome || l.any (fun p => p.user_id == pid)) := by
  induction l generalizing acc with
  | nil => simp
  | cons p ps ih =>
    simp only [List.foldl_cons, List.any_cons]
    rw [ih]
    by_cases hp : p.user_id = pid
    · have hb : (p.user_id == pid) = true := beq_iff_eq.mpr hp
      simp [hp, hb]
    · have hb : (p.user_id == pid) = false := beq_eq_false_iff_ne.mpr hp
      simp [hp, hb]

/-- Projecting the profile-attached compatibility entries back to plain
entries yields exactly the entries whose partner has a profile row. -/
theorem compat_profile_filter (db : DB) (l : List CompatEntry) :
    (l.filterMap (fun e => (profilesDictFind db e.partner_id).map
        (fun pr => (⟨pr, e.team_rating, e.avg_individual_rating,
          e.compatibility_score⟩ : CoreCompatEntry)))).map
      (fun ce => (⟨ce.partner.user_id, ce.team_rating,
        ce.avg_individual_rating, ce.compatibility_score⟩ : CompatEntry)) =
    l.filter (fun e =>
      db.profiles.any (fun p => p.user_id == e.partner_id)) := by
  induction l with
  | nil => rfl
  | cons e es ih =>
    have hiso := profilesFold_isSome db.profiles none e.partner_id
    cases hp : profilesDictFind db e.partner_id with
    | some pr =>
      have hu : pr.user_id = e.partner_id :=
        profilesFold_user_id db.profiles none e.partner_id
          (fun _ h => by cases h) pr hp
      have hs : db.profiles.any (fun p => p.user_id == e.partner_id) = true := by
        rw [profilesDictFind] at hp
        rw [hp] at hiso
        simpa using hiso.symm
      have heta : (⟨e.partner_id, e.team_rating, e.avg_individual_rating,
          e.compatibility_score⟩ : CompatEntry) = e := rfl
      simp [List.filterMap_cons, List.filter_cons, hp, hs, ih, hu, heta]
    | none =>
      have hs : db.profiles.any (fun p => p.user_id == e.partner_id) = false := by
        rw [profilesDictFind] at hp
        rw [hp] at hiso
        simpa using hiso.symm
      simp [List.filterMap_cons, List.filter_cons, hp, hs, ih]

/-- Projecting the profile-attached recommendation entries back to plain
entries yields exactly the entries whose partner has a profile row. -/
theorem rec_profile_filter (db : DB) (l : List RecEntry) :
    (l.filterMap (fun e => (profilesDictFind db e.partner_id).map
        (fun pr => (⟨pr, e.team_rating, e.avg_individual_rating,
          e.compatibility_score, e.games_played_together⟩ : CoreRecEntry)))).map
      (fun ce => (⟨ce.partner.user_id, ce.team_rating,
        ce.avg_individual_rating, ce.compatibility_score,
        ce.games_played_together⟩ : RecEntry)) =
    l.filter (fun e =>
      db.profiles.any (fun p => p.user_id == e.partner_id)) := by
  induction l with
  | nil => rfl
  | cons e es ih =>
    have hiso := profilesFold_isSome db.profiles none e.partner_id
    cases hp : profilesDictFind db e.partner_id with
    | some pr =>
      have hu : pr.user_id = e.partner_id :=
        profilesFold_user_id db.profiles none e.partner_id
          (fun _ h => by cases h) pr hp
      have hs : db.profiles.any (fun p => p.user_id == e.partner_id) = true := by
        rw [profilesDictFind] at hp
        rw [hp] at hiso
        simpa using hiso.symm
      have heta : (⟨e.partner_id, e.team_rating, e.avg_individual_rating,
          e.compatibility_score, e.games_played_together⟩ : RecEntry) = e := rfl
      simp [List.filterMap_cons, List.filter_cons, hp, hs, ih, hu, heta]
    | none =>
      have hs : db.profiles.any (fun p => p.user_id == e.partner_id) = false := by
        rw [profilesDictFind] at hp
        rw [hp] at hiso
        simpa using hiso.symm
      simp [List.filterMap_cons, List.filter_cons, hp, hs, ih]

/-- C10: the caller-facing compatibility and recommendation lists contain
exactly the store-level entries whose partner has a profile row — each
kept entry carries that partner profile, and entries whose partner lacks a
profile are silently omitted. -/
theorem profile_filtering (db : DB) (pid : String) (limit min_games : ℤ) :
    (core_get_compatibility_scores db pid).map
        (fun ce => (⟨ce.partner.user_id, ce.team_rating,
          ce.avg_individual_rating, ce.compatibility_score⟩ : CompatEntry)) =
      (db_get_compatibility_scores db pid).filter
        (fun e => db.profiles.any (fun p => p.user_id == e.partner_id)) ∧
    (core_get_recommended_partners db pid limit min_games).map
        (fun ce => (⟨ce.partner.user_id, ce.team_rating,
          ce.avg_individual_rating, ce.compatibility_score,
          ce.games_played_together⟩ : RecEntry)) =
      (db_get_recommended_partners db pid limit min_games).filter
        (fun e => db.profiles.any (fun p => p.user_id == e.partner_id)) := by
  constructor
  · unfold core_get_compatibility_scores
    by_cases h : db_get_compatibility_scores db pid = []
    · rw [if_pos h, h]
      rfl
    · rw [if_neg h]
      exact compat_profile_filter db _
  · unfold core_get_recommended_partners
    by_cases h : db_get_recommended_partners db pid limit min_games = []
    · rw [if_pos h, h]
      rfl
    · rw [if_neg h]
      exact rec_profile_filter db _

end SmashMate
